import Mathlib

/-!
Shallow embedding of the DineQR client logic (menu resolution, selection
cart, owner dashboard realtime sync and item move) together with the
migration tool's price policy.  JavaScript numbers that may be absent or
non-finite are modelled as `Option ℚ` (`none` standing for
`undefined`/`null`/`NaN`); JS string/number truthiness is made explicit in
small helper functions.  Effectful code (Firestore reads/writes, network
fetches, subscription callbacks) is modelled by explicit state passing:
stores are functions from document paths to optional documents, the fetch
environment is a function from a path to its outcome, and snapshot
deliveries are pure state transitions.
-/

namespace DineQR

/-! ## JS value helpers -/

/-- JS `a + b` on numbers where `none` models `undefined`/`NaN`
(any arithmetic with them yields `NaN`). -/
def jsAdd (a b : Option ℚ) : Option ℚ :=
  match a, b with
  | some x, some y => some (x + y)
  | _, _ => none

/-- JS `a * b` on numbers where `none` models `undefined`/`NaN`. -/
def jsMul (a b : Option ℚ) : Option ℚ :=
  match a, b with
  | some x, some y => some (x * y)
  | _, _ => none

/-- JS `v || d` for an optional string (`undefined`, `null` and the empty
string are falsy). -/
def jsOrStr (v : Option String) (d : String) : String :=
  match v with
  | some s => if s = "" then d else s
  | none => d

/-- JS `v || d` for an optional number (`undefined`, `null`, `NaN` and `0`
are falsy). -/
def jsOrNum (v : Option ℚ) (d : ℚ) : ℚ :=
  match v with
  | some q => if q = 0 then d else q
  | none => d

/-- JS `v !== false` applied to an optional boolean field
(absent counts as `true`, matching `data.available !== false`). -/
def jsNotFalse (v : Option Bool) : Bool :=
  match v with
  | some b => b
  | none => true

/-! ## Association lists: the JS `Map` / object-literal model

JS `Map`s (and the plain objects used as keyed buckets) are modelled as
association lists in insertion order.  `aget` is `Map.get`, `aset` is
`Map.set` (replace in place if present, append otherwise), `aerase` is
`Map.delete`. -/

/-- `Map.get` on an association list. -/
def aget {α : Type} : List (String × α) → String → Option α
  | [], _ => none
  | p :: rest, k => if p.1 = k then some p.2 else aget rest k

/-- `Map.set` on an association list: replace the value in place when the
key is present, append a new entry otherwise. -/
def aset {α : Type} (m : List (String × α)) (k : String) (v : α) : List (String × α) :=
  if (aget m k).isSome then
    m.map (fun p => if p.1 = k then (k, v) else p)
  else
    m ++ [(k, v)]

/-- `Map.delete` on an association list. -/
def aerase {α : Type} (m : List (String × α)) (k : String) : List (String × α) :=
  m.filter (fun p => p.1 ≠ k)

/-- The key list of an association list. -/
def akeys {α : Type} (m : List (String × α)) : List String :=
  m.map Prod.fst

/-! ## Menu document model (src/js/app.js)

`MenuDoc` is the in-memory shape the viewer works with, whatever the
source (Firestore assembly, parsed static JSON, or built-in fallback).
Fields that a given source may omit are `Option`s. -/

/-- A size variant of an item: `{ name, price }`. -/
structure SizeV where
  name : String
  price : Option ℚ
deriving DecidableEq

/-- A menu item as rendered by the viewer. -/
structure MenuItem where
  id : Option String := none
  name : Option String := none
  description : Option String := none
  price : Option ℚ := none
  sizes : Option (List SizeV) := none
  type : Option String := none
  available : Option Bool := none
  image : Option String := none
  tags : Option (List String) := none
  rating : Option ℚ := none
  prepTime : Option String := none
  deliveryCount : Option ℚ := none
deriving DecidableEq

/-- A category of the assembled menu document. -/
structure MenuCategory where
  id : Option String := none
  name : String
  items : List MenuItem
deriving DecidableEq

/-- Restaurant metadata of the assembled menu document. -/
structure RestaurantInfo where
  id : Option String := none
  name : Option String := none
  tagline : Option String := none
  logoUrl : Option String := none
  address : Option String := none
  phone : Option String := none
  openHours : Option String := none
  hours : Option String := none
  info : Option String := none
deriving DecidableEq

/-- The assembled menu document (`MenuDocument` of the spec). -/
structure MenuDoc where
  currency : Option String := none
  restaurant : Option RestaurantInfo := none
  categories : List MenuCategory
deriving DecidableEq

/-- `DEFAULT_RESTAURANT` from src/js/app.js. -/
def DEFAULT_RESTAURANT : String := "ajwa"

/-- The built-in fallback document for identifier `ajwa`
(src/js/app.js, `getFallbackMenu`). -/
def ajwaFallback : MenuDoc :=
  { currency := some "INR"
    restaurant := some
      { id := some "ajwa"
        name := some "Ajwa Kitchen"
        tagline := some "Authentic Arabian • Fresh • Delicious"
        address := some "123 Main St, City"
        hours := some "10:00 - 23:00"
        info := some "+91 98765 43210" }
    categories :=
      [ { name := "Mandi"
          items :=
            [ { name := some "Chicken Mandi"
                description := some "Tender smoked chicken with aromatic rice"
                available := some true
                type := some "non-veg"
                sizes := some
                  [ { name := "Quarter", price := some 199 }
                  , { name := "Half", price := some 349 }
                  , { name := "Full", price := some 599 } ] } ] } ] }

/-- The built-in fallback document for identifier `gogrill`
(src/js/app.js, `getFallbackMenu`). -/
def gogrillFallback : MenuDoc :=
  { currency := some "INR"
    restaurant := some
      { id := some "gogrill"
        name := some "GoGrill"
        tagline := some "Grilled to Perfection" }
    categories :=
      [ { name := "Burgers"
          items :=
            [ { name := some "Classic Burger"
                description := some "Juicy beef patty with fresh vegetables"
                available := some true
                type := some "non-veg"
                price := some 299 } ] } ] }

/-- `getFallbackMenu(restaurantId)` (src/js/app.js:317-373):
`fallbackMenus[restaurantId] || fallbackMenus['ajwa']`. -/
def getFallbackMenu (restaurantId : String) : MenuDoc :=
  if restaurantId = "ajwa" then ajwaFallback
  else if restaurantId = "gogrill" then gogrillFallback
  else ajwaFallback

/-- `getItemPrice(item)` (src/js/app.js:495-501): if the item has a
non-empty sizes list, the first size's price (which may itself be absent);
otherwise `item.price || 0`.  The result `none` models a JS `undefined`
display price. -/
def getItemPrice (item : MenuItem) : Option ℚ :=
  match item.sizes with
  | some (s0 :: _) => s0.price
  | _ => some (jsOrNum item.price 0)

/-! ## Migration tool price policy (src/tools/migrate-json-to-firestore.mjs)

`safeNumber(value)` keeps a finite number; otherwise it computes
`Number(String(value || "").trim())`, so an absent, `null` or empty
price stringifies to the empty string, which `Number` coerces to the
finite value `0` — returned, not `null`.  Only a value whose coercion is
`NaN` or an infinity (a non-numeric string, or such a number) makes
`safeNumber` return `null`. -/

/-- A raw price value as found in `menu.json`, classified by how
`safeNumber` treats it: `absent` covers `undefined`, `null` and the empty
string (coerced to `0`); `num q` a finite number or a string parsing to
one (kept); `invalid` a `NaN`, an infinity, or a non-numeric string
(yielding `null`). -/
inductive PriceField where
  | absent : PriceField
  | num (q : ℚ) : PriceField
  | invalid : PriceField
deriving DecidableEq

/-- `safeNumber` (src/tools/migrate-json-to-firestore.mjs:48-51). -/
def safeNumber : PriceField → Option ℚ
  | .absent => some 0
  | .num q => some q
  | .invalid => none

/-- A size entry as read by the migration tool. -/
structure MigSize where
  name : String
  price : PriceField
deriving DecidableEq

/-- `Math.min(...l)` over a list of finite numbers (`none` when empty;
the caller guards against the empty case). -/
def listMin : List ℚ → Option ℚ
  | [] => none
  | q :: rest => some (rest.foldl min q)

/-- The flat price stored by the migration tool
(src/tools/migrate-json-to-firestore.mjs:127-135): `safeNumber` of the
item's own price field when that is non-null — which includes an absent
price, coerced to `0`.  Only when `safeNumber` yields `null` (a present
but non-finite price) and a non-empty sizes list exists does the tool
take the minimum over `safeNumber` of the size prices with the `null`
ones filtered out (an absent size price therefore contributes `0` rather
than being dropped); when that filtered list is empty the price stays
`null`. -/
def migrateItemPrice (itemPrice : PriceField) (sizes : Option (List MigSize)) : Option ℚ :=
  match safeNumber itemPrice with
  | some q => some q
  | none =>
    match sizes with
    | some l =>
      if l.length ≠ 0 then
        listMin ((l.map (fun s => safeNumber s.price)).filterMap id)
      else none
    | none => none

/-! ## Menu resolution (src/js/app.js, `loadMenu` / `loadMenuFromFirestore`)

The fetch environment is a function from a candidate path to the outcome
of `fetch(path)`: a network error, or a response with an HTTP-success
flag, a content-type-declares-JSON flag, and the result of parsing the
body as JSON (`none` when the body is not valid JSON). -/

/-- Outcome of `fetch(path)` for one candidate path. -/
inductive FetchOutcome where
  | netError : FetchOutcome
  | response (ok : Bool) (ctJson : Bool) (body : Option MenuDoc) : FetchOutcome
deriving DecidableEq

/-- The document a single candidate yields, if any: HTTP success and a
body that parses as JSON.  When the content type declares JSON the code
calls `res.json()` (whose failure throws and is caught, moving on); when
it does not, the code reads the text and tries `JSON.parse` (whose failure
is caught, moving on) — so in both cases a success is exactly an `ok`
response with a parseable body, and `ctJson` does not matter. -/
def fetchSuccess (o : FetchOutcome) : Option MenuDoc :=
  match o with
  | .netError => none
  | .response ok _ body => if ok then body else none

/-- The candidate loop of `loadMenu` (src/js/app.js:174-200), instrumented
with the list of paths actually fetched, in order.  Stops at the first
candidate that yields a document. -/
def tryPathsAux (fetch : String → FetchOutcome) : List String → Option MenuDoc × List String
  | [] => (none, [])
  | p :: rest =>
    match fetchSuccess (fetch p) with
    | some d => (some d, [p])
    | none =>
      let r := tryPathsAux fetch rest
      (r.1, p :: r.2)

/-- The static-file phase of `loadMenu` followed by the built-in fallback
(src/js/app.js:158-203). -/
def staticPhase (fetch : String → FetchOutcome) (paths : List String)
    (restaurantId : String) : MenuDoc :=
  match (tryPathsAux fetch paths).1 with
  | some m => m
  | none => getFallbackMenu restaurantId

/-- The raw `restaurants/{id}` document data used by the viewer. -/
structure RestaurantDocData where
  name : Option String := none
  tagline : Option String := none
  logoUrl : Option String := none
  address : Option String := none
  phone : Option String := none
  openHours : Option String := none
  currency : Option String := none
deriving DecidableEq

/-- A raw document of the `restaurants/{id}/menuItems` collection
(doc id plus data fields, as consumed by `loadMenuFromFirestore`). -/
structure FsMenuItem where
  id : String
  name : Option String := none
  category : Option String := none
  description : Option String := none
  price : Option ℚ := none
  image : Option String := none
  available : Option Bool := none
  type : Option String := none
  rating : Option ℚ := none
  prepTime : Option String := none
  deliveryCount : Option ℚ := none
deriving DecidableEq

/-- The category display name (src/js/app.js:244): capitalise the first
character of the key and replace each dash in the rest by a space. -/
def categoryDisplayName (key : String) : String :=
  match key.toList with
  | [] => ""
  | c :: rest => String.mk [c.toUpper] ++ (String.mk rest).replace "-" " "

/-- Conversion of one Firestore item document to the viewer's menu format
(src/js/app.js:250-270), including the type-based tags. -/
def convertFsItem (item : FsMenuItem) : MenuItem :=
  let baseTags : List String := []
  let tags1 :=
    if item.type = some "bestseller" ∨ item.type = some "Best Seller" then
      baseTags ++ ["Bestseller"]
    else baseTags
  let tags2 :=
    if item.type = some "new" ∨ item.type = some "New Item" then
      tags1 ++ ["New"]
    else tags1
  { id := some item.id
    name := item.name
    description := some (jsOrStr item.description "")
    price := item.price
    image := some (jsOrStr item.image "")
    available := some (jsNotFalse item.available)
    type := some (jsOrStr item.type "veg")
    tags := some tags2
    rating := some (jsOrNum item.rating (9/2))
    prepTime := some (jsOrStr item.prepTime "")
    deliveryCount := some (jsOrNum item.deliveryCount 0) }

/-- The grouping loop of `loadMenuFromFirestore` (src/js/app.js:231-273):
bucket items by `item.category || 'other'` into a keyed map, in first-seen
order. -/
def groupMenuItems (items : List FsMenuItem) : List (String × MenuCategory) :=
  items.foldl
    (fun acc item =>
      let key := jsOrStr item.category "other"
      let mi := convertFsItem item
      match aget acc key with
      | some catRec => aset acc key { catRec with items := catRec.items ++ [mi] }
      | none =>
        acc ++ [(key, { id := some key, name := categoryDisplayName key, items := [mi] })])
    []

/-- `loadMenuFromFirestore(restaurantId)` (src/js/app.js:206-296).
`fsFail` models any thrown Firestore error (caught internally, yielding
`null`); `rdoc` is the `restaurants/{id}` document if it exists; `items`
the `menuItems` collection snapshot.  Returns `none` exactly when this
source is treated as a failure. -/
def loadMenuFromFirestore (fsFail : Bool) (rdoc : Option RestaurantDocData)
    (items : List FsMenuItem) (restaurantId : String) : Option MenuDoc :=
  if fsFail then none
  else
    match rdoc with
    | none => none
    | some rdata =>
      if items.isEmpty then none
      else
        some
          { currency := some (jsOrStr rdata.currency "INR")
            restaurant := some
              { id := some restaurantId
                name := some (jsOrStr rdata.name "Restaurant")
                tagline := some (jsOrStr rdata.tagline "")
                logoUrl := some (jsOrStr rdata.logoUrl "")
                address := some (jsOrStr rdata.address "")
                phone := some (jsOrStr rdata.phone "")
                openHours := some (jsOrStr rdata.openHours "") }
            categories := (groupMenuItems items).map Prod.snd }

/-- `loadMenu(restaurantId)` (src/js/app.js:144-204): the Firestore
phase (any throw caught, falling through), then the static candidate
paths in order, then the built-in fallback.  Total by construction: every
environment outcome yields a document, never an exception. -/
def resolveMenu (fsFail : Bool) (rdoc : Option RestaurantDocData)
    (items : List FsMenuItem) (restaurantId : String)
    (fetch : String → FetchOutcome) (paths : List String) : MenuDoc :=
  match loadMenuFromFirestore fsFail rdoc items restaurantId with
  | some m => m
  | none => staticPhase fetch paths restaurantId

/-! ## Selection/cart state machine (src/js/app.js:664-726)

`selectedItems` is a list of entries `{ item, size, price, quantity }`;
the key of an entry is the pair (item name, chosen size name or null). -/

/-- One entry of `selectedItems`.  `itemName` stands for the referenced
item's name (the key component `s.item.name`); `size` is the chosen size
name or `null`; `price` is the snapshotted unit price (absent when the
item had neither a chosen size nor a price field). -/
structure Sel where
  itemName : String
  size : Option String
  price : Option ℚ
  quantity : ℤ
deriving DecidableEq

/-- The key predicate `s.item.name === name && s.size === size` used by
`findIndex` in all three cart operations. -/
def selKey (name : String) (size : Option String) (s : Sel) : Bool :=
  s.itemName = name ∧ s.size = size

/-- `toggleItemSelection` (src/js/app.js:665-690) for a given current
item and selected size: remove the first entry with the same
(item, size) key if one exists, otherwise append a quantity-1 entry whose
price is the chosen size's price, or the item's base price when no size
is chosen. -/
def toggleItemSelection (sel : List Sel) (item : MenuItem) (selectedSize : Option SizeV) :
    List Sel :=
  let sizeKey := selectedSize.map (fun s => s.name)
  match sel.findIdx? (selKey (jsOrStr item.name "") sizeKey) with
  | some i => sel.eraseIdx i
  | none =>
    let price : Option ℚ :=
      match selectedSize with
      | some s => s.price
      | none => item.price
    sel ++ [{ itemName := jsOrStr item.name "", size := sizeKey, price := price, quantity := 1 }]

/-- `updateItemQuantity(itemName, size, delta)` (src/js/app.js:692-706):
apply the delta to the first entry with the key; remove it when the
resulting quantity is zero or below; no-op when no entry matches.  The
inner lookup totalizes the indexed access; its `none` branch is
unreachable because `findIdx?` only returns in-range indices. -/
def updateItemQuantity (sel : List Sel) (itemName : String) (size : Option String)
    (delta : ℤ) : List Sel :=
  match sel.findIdx? (selKey itemName size) with
  | some i =>
    match sel[i]? with
    | some s =>
      if s.quantity + delta ≤ 0 then sel.eraseIdx i
      else sel.set i { s with quantity := s.quantity + delta }
    | none => sel
  | none => sel

/-- `removeFromSelection(itemName, size)` (src/js/app.js:708-719). -/
def removeFromSelection (sel : List Sel) (itemName : String) (size : Option String) :
    List Sel :=
  match sel.findIdx? (selKey itemName size) with
  | some i => sel.eraseIdx i
  | none => sel

/-- `clearSelection` (src/js/app.js:721-726). -/
def clearSelection (_sel : List Sel) : List Sel := []

/-- The cart operations reachable from the UI. -/
inductive CartOp where
  | toggle (item : MenuItem) (selectedSize : Option SizeV)
  | adjust (itemName : String) (size : Option String) (delta : ℤ)
  | remove (itemName : String) (size : Option String)
  | clear
deriving DecidableEq

/-- Apply one cart operation. -/
def applyCartOp (sel : List Sel) : CartOp → List Sel
  | .toggle item sz => toggleItemSelection sel item sz
  | .adjust name size delta => updateItemQuantity sel name size delta
  | .remove name size => removeFromSelection sel name size
  | .clear => clearSelection sel

/-- Apply a sequence of cart operations, starting from a given state. -/
def applyCartOps (sel : List Sel) (ops : List CartOp) : List Sel :=
  ops.foldl applyCartOp sel

/-! ## Order summary (src/js/app.js:805-841, `showToWaiter`) -/

/-- One itemized line of the order summary: quantity, name, optional
size, and the printed line price `sel.price * sel.quantity`. -/
structure OrderLine where
  quantity : ℤ
  name : String
  size : Option String
  linePrice : Option ℚ
deriving DecidableEq

/-- The itemized lines of the order summary, one per selection entry in
order (src/js/app.js:819-823). -/
def orderLines (sel : List Sel) : List OrderLine :=
  sel.map (fun s =>
    { quantity := s.quantity
      name := s.itemName
      size := s.size
      linePrice := jsMul s.price (some (s.quantity : ℚ)) })

/-- The total printed by the order summary
(src/js/app.js:826): `selectedItems.reduce((sum, sel) => sum + sel.price * sel.quantity, 0)`. -/
def orderTotal (sel : List Sel) : Option ℚ :=
  sel.foldl (fun sum s => jsAdd sum (jsMul s.price (some (s.quantity : ℚ)))) (some 0)

/-- The sum, entry by entry, of unit price × quantity — the formula the
spec states for the cart total. -/
def specCartTotal (sel : List Sel) : Option ℚ :=
  sel.foldr (fun s acc => jsAdd (jsMul s.price (some (s.quantity : ℚ))) acc) (some 0)

/-! ## Owner dashboard: item move (src/owner/owner.js:430-465)

The per-restaurant Firestore items subtree is modelled as a function
`categoryId → itemId → Option ItemDocO` (the model is scoped to a linked
restaurant, so the `!restaurantId` guard of the source is outside it).
`serverTimestamp()` is modelled by an explicit `now : ℕ`. -/

/-- An item document of `restaurants/{id}/categories/{c}/items/{i}` as the
owner dashboard reads and writes it. -/
structure ItemDocO where
  name : Option String := none
  price : Option ℚ := none
  type : Option String := none
  available : Option Bool := none
  createdAt : Option ℕ := none
  updatedAt : Option ℕ := none
deriving DecidableEq

/-- The items subtree of one restaurant. -/
def ItemsStore : Type := String → String → Option ItemDocO

/-- `moveItem(oldCategoryId, itemId, newCategoryId)`
(src/owner/owner.js:430-465): guard empty ids, short-circuit a move onto
itself, ask for confirmation, read the source (fail if absent), read the
destination (fail if present), then write the copy at the destination and
delete the source.  Returns the updated store and the reported success. -/
def moveItem (st : ItemsStore) (oldCategoryId itemId newCategoryId : String)
    (confirmed : Bool) (now : ℕ) : ItemsStore × Bool :=
  if oldCategoryId = "" ∨ newCategoryId = "" then (st, false)
  else if oldCategoryId = newCategoryId then (st, true)
  else if confirmed = false then (st, false)
  else
    match st oldCategoryId itemId with
    | none => (st, false)
    | some data =>
      match st newCategoryId itemId with
      | some _ => (st, false)
      | none =>
        let afterSet : ItemsStore := fun c i =>
          if c = newCategoryId ∧ i = itemId then some { data with updatedAt := some now }
          else st c i
        let afterDelete : ItemsStore := fun c i =>
          if c = oldCategoryId ∧ i = itemId then none else afterSet c i
        (afterDelete, true)

/-! ## Owner dashboard: realtime sync manager (src/owner/owner.js:633-789)

The dashboard state holds the category mirror, the per-category item
mirrors and the map of item-collection subscriptions (modelled by their
key set, in `Map` insertion order).  A category-collection snapshot is a
list of (doc id, raw data) pairs; delivering it runs the handler of
`onSnapshot(catsQuery, ...)` (src/owner/owner.js:731-788). -/

/-- Raw data of a category document as delivered in a snapshot. -/
structure RawCat where
  name : Option String := none
  enabled : Option Bool := none
deriving DecidableEq

/-- The normalized category mirror entry built by the snapshot handler. -/
structure CatMirror where
  id : String
  name : String
  enabled : Bool
deriving DecidableEq

/-- A mirrored owner-side item. -/
structure OwnerItem where
  id : String
  name : String
  price : Option ℚ
  type : String
  available : Bool
deriving DecidableEq

/-- The in-memory dashboard state (src/owner/owner.js:171-181):
`state.categories`, `state.itemsByCategory` and the `itemsUnsubs` map
(represented by its key list, since the unsubscribe closures carry no
data). -/
structure DashState where
  categories : List (String × CatMirror)
  itemsByCategory : List (String × List (String × OwnerItem))
  itemsUnsubs : List String
deriving DecidableEq

/-- The initial dashboard state: empty maps. -/
def initDashState : DashState :=
  { categories := [], itemsByCategory := [], itemsUnsubs := [] }

/-- Building `nextCategories` from a snapshot (src/owner/owner.js:734-743):
a `Map` populated by `set` per document, normalizing name and enabled. -/
def buildNextCategories (snap : List (String × RawCat)) : List (String × CatMirror) :=
  snap.foldl
    (fun m p =>
      aset m p.1 { id := p.1, name := jsOrStr p.2.name "", enabled := jsNotFalse p.2.enabled })
    []

/-- The category-collection snapshot handler (src/owner/owner.js:733-783):
build the next category map; unsubscribe and drop the mirrored items of
every category that disappeared; install the next map; then ensure an
item subscription exists for every current category. -/
def onCategoriesSnapshot (snap : List (String × RawCat)) (st : DashState) : DashState :=
  let nextCategories := buildNextCategories snap
  let removed := (akeys st.categories).filter (fun k => (aget nextCategories k).isNone)
  let unsubs1 := removed.foldl (fun m k => m.filter (fun x => x ≠ k)) st.itemsUnsubs
  let items1 := removed.foldl (fun m k => aerase m k) st.itemsByCategory
  let toAdd := (akeys nextCategories).filter (fun k => ¬ unsubs1.contains k)
  { categories := nextCategories
    itemsByCategory := items1
    itemsUnsubs := unsubs1 ++ toAdd }

/-- The item-collection snapshot handler for one category
(src/owner/owner.js:763-777): replace that category's item mirror. -/
def onItemsSnapshot (catId : String) (itemsSnap : List (String × OwnerItem))
    (st : DashState) : DashState :=
  { st with itemsByCategory := aset st.itemsByCategory catId itemsSnap }

/-- `clearRealtimeListeners` (src/owner/owner.js:633-648) combined with
the state reset: every item subscription is unsubscribed and the map
cleared. -/
def clearRealtimeListeners (st : DashState) : DashState :=
  { st with itemsUnsubs := [] }

/-- The well-formedness the dashboard state maintains between snapshot
deliveries: subscription keys are unique, every subscription belongs to a
mirrored category, and every mirrored item bucket belongs to a mirrored
category. -/
def WfDash (st : DashState) : Prop :=
  st.itemsUnsubs.Nodup ∧
  (∀ k, k ∈ st.itemsUnsubs → (aget st.categories k).isSome) ∧
  (∀ k, (aget st.itemsByCategory k).isSome → (aget st.categories k).isSome)

/-! ## Concrete data used by witnesses -/

/-- A two-category store whose categories `a` and `b` both hold an item
with identifier `x`. -/
def demoStore : ItemsStore := fun c i =>
  if c = "a" ∧ i = "x" then some { name := some "Samosa", price := some 7 }
  else if c = "b" ∧ i = "x" then some { name := some "Kebab", price := some 9 }
  else none

/-- A fetch environment with three candidates: the first fails with an
HTTP error, the second succeeds with a parseable body served without a
JSON content type, the third would succeed but is never reached. -/
def demoFetch : String → FetchOutcome := fun s =>
  if s = "p1" then .response false true none
  else if s = "p2" then .response true false (some gogrillFallback)
  else if s = "p3" then .response true true (some ajwaFallback)
  else .netError

/-- An item with a flat price and no sizes. -/
def samosaItem : MenuItem := { name := some "Samosa", price := some 7 }

/-- An item with no flat price whose first listed size is not the
cheapest one. -/
def demoSizedItem : MenuItem :=
  { price := none
    sizes := some [{ name := "Full", price := some 10 },
                   { name := "Half", price := some 5 }] }

/-- A dashboard state with one category `c1` carrying its item
subscription and a mirrored item. -/
def demoDash : DashState :=
  { categories := [("c1", { id := "c1", name := "Starters", enabled := true })]
    itemsByCategory := [("c1", [("i1", { id := "i1", name := "Samosa", price := some 7,
                                         type := "veg", available := true })])]
    itemsUnsubs := ["c1"] }

/-! # Theorems -/

/-- C10: for every item with no sizes list (or an empty one) and no truthy
price field, the viewer's default-price function returns the defined
number 0, not an undefined value. -/
theorem getItemPrice_defaults_to_zero (item : MenuItem)
    (hsz : item.sizes = none ∨ item.sizes = some [])
    (hpr : item.price = none ∨ item.price = some 0) :
    getItemPrice item = some 0 := by
  rcases hsz with h | h <;> rcases hpr with h2 | h2 <;>
    simp [getItemPrice, h, h2, jsOrNum]

theorem getItemPrice_defaults_to_zero_witness :
    getItemPrice { } = some 0 :=
  getItemPrice_defaults_to_zero { } (Or.inl rfl) (Or.inl rfl)

/-- C9 (code bug): the claim — and the migration tool's own comment
(src/tools/migrate-json-to-firestore.mjs:127-129) — says an item without
a flat price gets the minimum size price, but `safeNumber` coerces an
absent price to the finite number `0`, so at the failing input (no price
field, sizes Full = 10 / Half = 5) the tool stores `0` and never reaches
the minimum-size branch.  That branch runs only for a present but
non-finite price, where the stored minimum (5) still differs from the
first size's price (10) that the viewer displays for the same item. -/
theorem migration_absent_price_stores_zero :
    migrateItemPrice PriceField.absent
        (some [{ name := "Full", price := PriceField.num 10 },
               { name := "Half", price := PriceField.num 5 }])
      = some 0 ∧
    migrateItemPrice PriceField.invalid
        (some [{ name := "Full", price := PriceField.num 10 },
               { name := "Half", price := PriceField.num 5 }])
      = some 5 ∧
    getItemPrice demoSizedItem = some 10 ∧
    migrateItemPrice PriceField.invalid
        (some [{ name := "Full", price := PriceField.num 10 },
               { name := "Half", price := PriceField.num 5 }])
      ≠ getItemPrice demoSizedItem := by
  refine ⟨rfl, by decide, rfl, by decide⟩

/-- C1: a move whose destination already holds an item with the same
identifier, or whose source item does not exist, reports failure and
leaves the whole store unchanged: the source item is neither deleted nor
modified and nothing is written at the destination.  (The dashboard only
invokes a move between two distinct categories, src/owner/owner.js:580.) -/
theorem moveItem_aborts_without_writes (st : ItemsStore)
    (oldCategoryId itemId newCategoryId : String) (confirmed : Bool) (now : ℕ)
    (hne : oldCategoryId ≠ newCategoryId)
    (hfail : st newCategoryId itemId ≠ none ∨ st oldCategoryId itemId = none) :
    (moveItem st oldCategoryId itemId newCategoryId confirmed now).2 = false ∧
    ∀ c i, (moveItem st oldCategoryId itemId newCategoryId confirmed now).1 c i = st c i := by
  unfold moveItem
  by_cases hemp : oldCategoryId = "" ∨ newCategoryId = ""
  · simp [hemp]
  · simp only [hemp, if_false, hne, if_false]
    by_cases hconf : confirmed = false
    · simp [hconf]
    · simp only [hconf, if_false]
      cases hsrc : st oldCategoryId itemId with
      | none => simp
      | some data =>
        cases hdst : st newCategoryId itemId with
        | none =>
          rcases hfail with h | h
          · exact absurd hdst h
          · rw [hsrc] at h; exact absurd h (by simp)
        | some other => simp

theorem moveItem_aborts_without_writes_witness :
    (moveItem demoStore "a" "x" "b" true 5).2 = false ∧
    ∀ c i, (moveItem demoStore "a" "x" "b" true 5).1 c i = demoStore c i :=
  moveItem_aborts_without_writes demoStore "a" "x" "b" true 5 (by decide)
    (Or.inl (by simp [demoStore]))

/-- When every candidate fails, the loop exhausts the list, fetching all
of it in order and yielding no document. -/
theorem tryPathsAux_all_fail (fetch : String → FetchOutcome) (paths : List String)
    (h : ∀ p ∈ paths, fetchSuccess (fetch p) = none) :
    tryPathsAux fetch paths = (none, paths) := by
  induction paths with
  | nil => rfl
  | cons p rest ih =>
    have hp : fetchSuccess (fetch p) = none := h p (List.mem_cons_self p rest)
    have hrest : ∀ q ∈ rest, fetchSuccess (fetch q) = none :=
      fun q hq => h q (List.mem_cons_of_mem p hq)
    simp [tryPathsAux, hp, ih hrest]

/-- C2: when the structured store lookup fails or returns nothing and
every static candidate path fails, resolution returns the built-in
fallback document for the identifier — the well-known identifiers get
their own fallback, every other identifier gets the default identifier's
fallback.  `resolveMenu` is a total function into `MenuDoc`, so no
environment outcome produces an exception. -/
theorem resolveMenu_total_fallback (fsFail : Bool) (rdoc : Option RestaurantDocData)
    (items : List FsMenuItem) (restaurantId : String)
    (fetch : String → FetchOutcome) (paths : List String)
    (hfs : loadMenuFromFirestore fsFail rdoc items restaurantId = none)
    (hpaths : ∀ p ∈ paths, fetchSuccess (fetch p) = none) :
    resolveMenu fsFail rdoc items restaurantId fetch paths = getFallbackMenu restaurantId ∧
    (restaurantId ≠ "ajwa" → restaurantId ≠ "gogrill" →
      getFallbackMenu restaurantId = getFallbackMenu DEFAULT_RESTAURANT) := by
  constructor
  · unfold resolveMenu
    rw [hfs]
    unfold staticPhase
    rw [tryPathsAux_all_fail fetch paths hpaths]
  · intro h1 h2
    simp [getFallbackMenu, DEFAULT_RESTAURANT, h1, h2]

theorem resolveMenu_total_fallback_witness :
    resolveMenu true none [] "no-such-place" (fun _ => FetchOutcome.netError) ["q1", "q2"]
      = getFallbackMenu "no-such-place" ∧
    ("no-such-place" ≠ "ajwa" → "no-such-place" ≠ "gogrill" →
      getFallbackMenu "no-such-place" = getFallbackMenu DEFAULT_RESTAURANT) :=
  resolveMenu_total_fallback true none [] "no-such-place"
    (fun _ => FetchOutcome.netError) ["q1", "q2"] rfl (fun _ _ => rfl)

/-- C3: candidates are fetched strictly in list order; the first
candidate yielding HTTP success with a JSON-parseable body is returned
and nothing beyond it is fetched; a successful response is accepted
regardless of whether its content type declares JSON, as long as the
body parses; and the fetched paths always form a front segment of the
candidate list. -/
theorem tryPaths_first_success (fetch : String → FetchOutcome)
    (earlier : List String) (p : String) (later : List String) (d : MenuDoc)
    (hpre : ∀ q ∈ earlier, fetchSuccess (fetch q) = none)
    (hp : fetchSuccess (fetch p) = some d) :
    tryPathsAux fetch (earlier ++ p :: later) = (some d, earlier ++ [p]) ∧
    (∀ (d2 : MenuDoc) (ct : Bool),
      fetchSuccess (FetchOutcome.response true ct (some d2)) = some d2) ∧
    (∀ paths : List String, ∃ n, (tryPathsAux fetch paths).2 = paths.take n) := by
  refine ⟨?_, fun d2 ct => rfl, ?_⟩
  · induction earlier with
    | nil => simp [tryPathsAux, hp]
    | cons q rest ih =>
      have hq : fetchSuccess (fetch q) = none := hpre q (List.mem_cons_self q rest)
      have hrest : ∀ r ∈ rest, fetchSuccess (fetch r) = none :=
        fun r hr => hpre r (List.mem_cons_of_mem q hr)
      simp [tryPathsAux, hq, ih hrest]
  · intro paths
    induction paths with
    | nil => exact ⟨0, rfl⟩
    | cons q rest ih =>
      cases hq : fetchSuccess (fetch q) with
      | some d2 => exact ⟨1, by simp [tryPathsAux, hq]⟩
      | none =>
        obtain ⟨n, hn⟩ := ih
        exact ⟨n + 1, by simp [tryPathsAux, hq, hn]⟩

theorem tryPaths_first_success_witness :
    tryPathsAux demoFetch (["p1"] ++ "p2" :: ["p3"]) = (some gogrillFallback, ["p1"] ++ ["p2"]) ∧
    (∀ (d2 : MenuDoc) (ct : Bool),
      fetchSuccess (FetchOutcome.response true ct (some d2)) = some d2) ∧
    (∀ paths : List String, ∃ n, (tryPathsAux demoFetch paths).2 = paths.take n) :=
  tryPaths_first_success demoFetch ["p1"] "p2" ["p3"] gogrillFallback
    (by intro q hq; simp at hq; subst hq; rfl) rfl

/-- C8: a restaurant record that exists in the store but yields zero menu
items makes the structured lookup a failure (`none`), so resolution moves
on to the static phase; and with at least one menu item the structured
lookup does succeed. -/
theorem firestore_empty_items_falls_through (rdata : RestaurantDocData)
    (items : List FsMenuItem) (restaurantId : String)
    (fetch : String → FetchOutcome) (paths : List String) :
    loadMenuFromFirestore false (some rdata) [] restaurantId = none ∧
    resolveMenu false (some rdata) [] restaurantId fetch paths
      = staticPhase fetch paths restaurantId ∧
    (items ≠ [] →
      (loadMenuFromFirestore false (some rdata) items restaurantId).isSome = true) := by
  refine ⟨rfl, rfl, ?_⟩
  intro hne
  cases items with
  | nil => exact absurd rfl hne
  | cons it rest => simp [loadMenuFromFirestore]

/-- `findIdx?` locates the first match: everything before it fails the
predicate, the element at the returned index satisfies it. -/
theorem findIdx?_first_match {α : Type} (p : α → Bool) (before : List α) (a : α)
    (after : List α) (hb : ∀ x ∈ before, p x = false) (ha : p a = true) :
    (before ++ a :: after).findIdx? p = some before.length := by
  rw [List.findIdx?_append, List.findIdx?_eq_none_iff.mpr hb]
  simp [List.findIdx?_cons, ha]

/-- Erasing at the index of the middle element drops exactly it. -/
theorem eraseIdx_middle {α : Type} (before : List α) (a : α) (after : List α) :
    (before ++ a :: after).eraseIdx before.length = before ++ after := by
  rw [List.eraseIdx_append_of_length_le (Nat.le_refl _)]
  simp

/-- Setting at the index of the middle element replaces exactly it. -/
theorem set_middle {α : Type} (before : List α) (a v : α) (after : List α) :
    (before ++ a :: after).set before.length v = before ++ v :: after := by
  rw [List.set_append_right _ _ (Nat.le_refl _)]
  simp

/-- Indexing at the middle element's position yields it. -/
theorem getElem?_middle {α : Type} (before : List α) (a : α) (after : List α) :
    (before ++ a :: after)[before.length]? = some a := by
  rw [List.getElem?_append_right (Nat.le_refl _)]
  simp

/-- C5: invoking the selection toggle with a (item, chosen size) key that
has no entry appends exactly one entry with quantity 1 and the chosen
size's price (or the item's base price when no size is chosen); invoking
it when an entry with that key exists removes that entry — toggle
semantics, not increment. -/
theorem toggleItemSelection_toggle_semantics (sel : List Sel) (item : MenuItem)
    (selectedSize : Option SizeV) :
    ((∀ s ∈ sel, selKey (jsOrStr item.name "") (selectedSize.map (fun z => z.name)) s = false) →
      toggleItemSelection sel item selectedSize
        = sel ++ [{ itemName := jsOrStr item.name ""
                    size := selectedSize.map (fun z => z.name)
                    price := match selectedSize with
                             | some z => z.price
                             | none => item.price
                    quantity := 1 }]) ∧
    (∀ (before : List Sel) (s0 : Sel) (after : List Sel),
      sel = before ++ s0 :: after →
      selKey (jsOrStr item.name "") (selectedSize.map (fun z => z.name)) s0 = true →
      (∀ s ∈ before,
        selKey (jsOrStr item.name "") (selectedSize.map (fun z => z.name)) s = false) →
      toggleItemSelection sel item selectedSize = before ++ after) := by
  constructor
  · intro h
    have hn : sel.findIdx?
        (selKey (jsOrStr item.name "") (selectedSize.map (fun z => z.name))) = none :=
      List.findIdx?_eq_none_iff.mpr h
    simp [toggleItemSelection, hn]
  · intro before s0 after hsel h0 hb
    subst hsel
    have hf := findIdx?_first_match
      (selKey (jsOrStr item.name "") (selectedSize.map (fun z => z.name))) before s0 after hb h0
    simp [toggleItemSelection, hf, eraseIdx_middle]

theorem toggleItemSelection_toggle_semantics_witness :
    toggleItemSelection [] samosaItem none
      = [{ itemName := "Samosa", size := none, price := some 7, quantity := 1 }] ∧
    toggleItemSelection [{ itemName := "Samosa", size := none, price := some 7, quantity := 1 }]
        samosaItem none
      = [] := by
  constructor
  · have h := (toggleItemSelection_toggle_semantics [] samosaItem none).1
      (by intro s hs; simp at hs)
    rw [h]
    rfl
  · have h := (toggleItemSelection_toggle_semantics
        [{ itemName := "Samosa", size := none, price := some 7, quantity := 1 }]
        samosaItem none).2
      [] { itemName := "Samosa", size := none, price := some 7, quantity := 1 } [] rfl
      (by decide) (by intro s hs; simp at hs)
    simpa using h

/-- C6: adjust-quantity applies the signed delta to the entry for the
given (item, size) key, removing the entry when the resulting quantity is
zero or below; consequently, after any sequence of cart operations
starting from the empty selection, every remaining entry has quantity at
least 1. -/
theorem updateItemQuantity_delta_and_positivity :
    (∀ (before : List Sel) (s0 : Sel) (after : List Sel) (name : String)
        (size : Option String) (delta : ℤ),
      selKey name size s0 = true →
      (∀ s ∈ before, selKey name size s = false) →
      updateItemQuantity (before ++ s0 :: after) name size delta
        = if s0.quantity + delta ≤ 0 then before ++ after
          else before ++ { s0 with quantity := s0.quantity + delta } :: after) ∧
    (∀ ops : List CartOp, ∀ s ∈ applyCartOps [] ops, 1 ≤ s.quantity) := by
  constructor
  · intro before s0 after name size delta h0 hb
    have hf := findIdx?_first_match (selKey name size) before s0 after hb h0
    unfold updateItemQuantity
    simp only [hf, getElem?_middle]
    by_cases hq : s0.quantity + delta ≤ 0
    · simp [hq, eraseIdx_middle]
    · simp [hq, set_middle]
  · have step : ∀ (sel : List Sel) (op : CartOp), (∀ s ∈ sel, 1 ≤ s.quantity) →
        ∀ s ∈ applyCartOp sel op, 1 ≤ s.quantity := by
      intro sel op h s hs
      cases op with
      | toggle item sz =>
        simp only [applyCartOp, toggleItemSelection] at hs
        rcases hmatch : sel.findIdx?
            (selKey (jsOrStr item.name "") (sz.map fun z => z.name)) with _ | i
        · rw [hmatch] at hs
          simp only [List.mem_append, List.mem_singleton] at hs
          rcases hs with hs | hs
          · exact h s hs
          · subst hs; exact le_refl 1
        · rw [hmatch] at hs
          exact h s (List.mem_of_mem_eraseIdx hs)
      | adjust name size delta =>
        simp only [applyCartOp] at hs
        unfold updateItemQuantity at hs
        rcases hmatch : sel.findIdx? (selKey name size) with _ | i
        · simp only [hmatch] at hs; exact h s hs
        · simp only [hmatch] at hs
          rcases hget : sel[i]? with _ | s0
          · simp only [hget] at hs; exact h s hs
          · simp only [hget] at hs
            by_cases hq : s0.quantity + delta ≤ 0
            · rw [if_pos hq] at hs
              exact h s (List.mem_of_mem_eraseIdx hs)
            · rw [if_neg hq] at hs
              rcases List.mem_or_eq_of_mem_set hs with hmem | heq
              · exact h s hmem
              · subst heq
                simp only [not_le] at hq
                show 1 ≤ s0.quantity + delta
                omega
      | remove name size =>
        simp only [applyCartOp, removeFromSelection] at hs
        rcases hmatch : sel.findIdx? (selKey name size) with _ | i
        · rw [hmatch] at hs; exact h s hs
        · rw [hmatch] at hs
          exact h s (List.mem_of_mem_eraseIdx hs)
      | clear =>
        simp [applyCartOp, clearSelection] at hs
    have run : ∀ (ops : List CartOp) (sel : List Sel), (∀ s ∈ sel, 1 ≤ s.quantity) →
        ∀ s ∈ applyCartOps sel ops, 1 ≤ s.quantity := by
      intro ops
      induction ops with
      | nil => intro sel h s hs; exact h s hs
      | cons op rest ih =>
        intro sel h s hs
        exact ih (applyCartOp sel op) (step sel op h) s hs
    intro ops
    exact run ops [] (by intro s hs; simp at hs)

theorem updateItemQuantity_delta_and_positivity_witness :
    updateItemQuantity [{ itemName := "Samosa", size := none, price := some 7, quantity := 2 }]
        "Samosa" none (-2)
      = [] ∧
    1 ≤ ({ itemName := "Samosa", size := none, price := some 7, quantity := 1 } : Sel).quantity := by
  constructor
  · have h := updateItemQuantity_delta_and_positivity.1
      [] { itemName := "Samosa", size := none, price := some 7, quantity := 2 } []
      "Samosa" none (-2) (by decide) (by intro s hs; simp at hs)
    simpa using h
  · exact updateItemQuantity_delta_and_positivity.2 [CartOp.toggle samosaItem none]
      { itemName := "Samosa", size := none, price := some 7, quantity := 1 } (by decide)

/-- JS addition on optional numbers is associative. -/
theorem jsAdd_assoc (a b c : Option ℚ) : jsAdd (jsAdd a b) c = jsAdd a (jsAdd b c) := by
  cases a <;> cases b <;> cases c <;> simp [jsAdd, add_assoc]

/-- Adding to the zero accumulator is the identity. -/
theorem jsAdd_some_zero (a : Option ℚ) : jsAdd (some 0) a = a := by
  cases a <;> simp [jsAdd]

/-- The running-total fold equals the accumulator plus the entrywise sum. -/
theorem orderTotal_foldr (l : List Sel) (acc : Option ℚ) :
    l.foldl (fun sum s => jsAdd sum (jsMul s.price (some (s.quantity : ℚ)))) acc
      = jsAdd acc (specCartTotal l) := by
  induction l generalizing acc with
  | nil =>
    cases acc <;> simp [specCartTotal, jsAdd]
  | cons s rest ih =>
    simp only [List.foldl_cons, specCartTotal, List.foldr_cons] at *
    rw [ih, ← jsAdd_assoc]

/-- C7: the total of the order summary equals the sum over all selection
entries of unit price × quantity, and each itemized line's printed price
is that entry's unit price × quantity. -/
theorem orderSummary_total_and_lines (sel : List Sel) :
    orderTotal sel = specCartTotal sel ∧
    ∀ i : ℕ,
      ((orderLines sel)[i]?).map OrderLine.linePrice
        = (sel[i]?).map (fun s => jsMul s.price (some (s.quantity : ℚ))) := by
  constructor
  · unfold orderTotal
    rw [orderTotal_foldr, jsAdd_some_zero]
  · intro i
    simp [orderLines, Option.map_map]
    rfl

theorem firestore_empty_items_falls_through_witness :
    loadMenuFromFirestore false (some { }) [] "spice-garden" = none ∧
    resolveMenu false (some { }) [] "spice-garden" demoFetch ["p1"]
      = staticPhase demoFetch ["p1"] "spice-garden" ∧
    ([{ id := "i1", name := some "Samosa" }] ≠ ([] : List FsMenuItem) →
      (loadMenuFromFirestore false (some { }) [{ id := "i1", name := some "Samosa" }]
        "spice-garden").isSome = true) :=
  firestore_empty_items_falls_through { } [{ id := "i1", name := some "Samosa" }]
    "spice-garden" demoFetch ["p1"]

/-- A key is retrievable exactly when it occurs in the key list. -/
theorem aget_isSome_iff {α : Type} (m : List (String × α)) (k : String) :
    (aget m k).isSome ↔ k ∈ akeys m := by
  induction m with
  | nil => simp [aget, akeys]
  | cons p rest ih =>
    simp only [aget, akeys, List.map_cons, List.mem_cons]
    by_cases h : p.1 = k
    · simp [h]
    · rw [if_neg h]
      simp only [akeys] at ih
      rw [ih]
      constructor
      · exact Or.inr
      · rintro (rfl | hk)
        · exact absurd rfl h
        · exact hk

/-- Looking up in an appended association list falls through. -/
theorem aget_append {α : Type} (m1 m2 : List (String × α)) (k : String) :
    aget (m1 ++ m2) k = (aget m1 k).or (aget m2 k) := by
  induction m1 with
  | nil => simp [aget]
  | cons p rest ih =>
    by_cases h : p.1 = k
    · simp [aget, h]
    · simp [aget, h, ih]

/-- Replacing a value in place does not change the key list. -/
theorem akeys_map_replace {α : Type} (m : List (String × α)) (k : String) (v : α) :
    akeys (m.map (fun p => if p.1 = k then (k, v) else p)) = akeys m := by
  induction m with
  | nil => rfl
  | cons p rest ih =>
    show (if p.1 = k then (k, v) else p).1
        :: akeys (rest.map (fun p => if p.1 = k then (k, v) else p))
      = p.1 :: akeys rest
    rw [ih]
    by_cases hp : p.1 = k
    · rw [if_pos hp, hp]
    · rw [if_neg hp]

/-- `Map.set` keeps the key list when the key is present and appends it
otherwise. -/
theorem akeys_aset {α : Type} (m : List (String × α)) (k : String) (v : α) :
    akeys (aset m k v) = if (aget m k).isSome then akeys m else akeys m ++ [k] := by
  unfold aset
  by_cases h : (aget m k).isSome
  · simp [h, akeys_map_replace]
  · simp [h, akeys]

/-- After `Map.set`, a key is retrievable exactly when it is the set key
or was already retrievable. -/
theorem aget_aset_isSome {α : Type} (m : List (String × α)) (k : String) (v : α)
    (k2 : String) :
    (aget (aset m k v) k2).isSome ↔ (k2 = k ∨ (aget m k2).isSome) := by
  rw [aget_isSome_iff, akeys_aset]
  by_cases h : (aget m k).isSome
  · rw [if_pos h, aget_isSome_iff]
    constructor
    · exact Or.inr
    · rintro (rfl | hk)
      · exact (aget_isSome_iff m k2).mp h
      · exact hk
  · rw [if_neg h, aget_isSome_iff]
    simp only [List.mem_append, List.mem_singleton]
    tauto

/-- `Map.set` preserves key uniqueness. -/
theorem akeys_aset_nodup {α : Type} (m : List (String × α)) (k : String) (v : α)
    (h : (akeys m).Nodup) : (akeys (aset m k v)).Nodup := by
  rw [akeys_aset]
  by_cases hk : (aget m k).isSome
  · rwa [if_pos hk]
  · rw [if_neg hk]
    have hnm : k ∉ akeys m := fun hm => hk ((aget_isSome_iff m k).mpr hm)
    simp [List.nodup_append, h, hnm]

/-- The category map built from a snapshot has unique keys. -/
theorem buildNextCategories_keys_nodup (snap : List (String × RawCat)) :
    (akeys (buildNextCategories snap)).Nodup := by
  have aux : ∀ acc : List (String × CatMirror), (akeys acc).Nodup →
      (akeys (snap.foldl
        (fun m p =>
          aset m p.1 { id := p.1, name := jsOrStr p.2.name "", enabled := jsNotFalse p.2.enabled })
        acc)).Nodup := by
    induction snap with
    | nil => intro acc h; exact h
    | cons p rest ih =>
      intro acc h
      exact ih _ (akeys_aset_nodup acc p.1 _ h)
  exact aux [] (by simp [akeys])

/-- A key is present in the built category map exactly when it is one of
the snapshot's document identifiers. -/
theorem buildNextCategories_isSome_iff (snap : List (String × RawCat)) (k : String) :
    (aget (buildNextCategories snap) k).isSome ↔ k ∈ snap.map Prod.fst := by
  have aux : ∀ acc : List (String × CatMirror),
      (aget (snap.foldl
        (fun m p =>
          aset m p.1 { id := p.1, name := jsOrStr p.2.name "", enabled := jsNotFalse p.2.enabled })
        acc) k).isSome ↔ ((aget acc k).isSome ∨ k ∈ snap.map Prod.fst) := by
    induction snap with
    | nil => intro acc; simp
    | cons p rest ih =>
      intro acc
      simp only [List.foldl_cons, List.map_cons, List.mem_cons]
      rw [ih, aget_aset_isSome]
      tauto
  rw [buildNextCategories, aux]
  simp [aget]

/-- Membership after repeatedly filtering out the removed keys. -/
theorem mem_foldl_filter_ne (removed l : List String) (k : String) :
    k ∈ removed.foldl (fun m r => m.filter (fun x => x ≠ r)) l ↔ k ∈ l ∧ k ∉ removed := by
  induction removed generalizing l with
  | nil => simp
  | cons r rest ih =>
    simp only [List.foldl_cons, List.mem_cons]
    rw [ih]
    simp only [List.mem_filter, decide_eq_true_eq]
    tauto

/-- Repeatedly filtering out keys preserves uniqueness. -/
theorem nodup_foldl_filter_ne (removed l : List String) (h : l.Nodup) :
    (removed.foldl (fun m r => m.filter (fun x => x ≠ r)) l).Nodup := by
  induction removed generalizing l with
  | nil => exact h
  | cons r rest ih =>
    exact ih _ (List.Nodup.filter _ h)

/-- `Map.delete` removes exactly the given key. -/
theorem aget_aerase {α : Type} (m : List (String × α)) (r k : String) :
    aget (aerase m r) k = if k = r then none else aget m k := by
  induction m with
  | nil => simp [aerase, aget]
  | cons p rest ih =>
    by_cases hp : p.1 = r
    · have hstep : aerase (p :: rest) r = aerase rest r := by
        simp [aerase, List.filter_cons, hp]
      rw [hstep, ih]
      by_cases hk : k = r
      · simp [hk]
      · rw [if_neg hk, if_neg hk]
        have hpk : ¬ (p.1 = k) := by
          rw [hp]; exact fun hc => hk hc.symm
        simp [aget, hpk]
    · have hstep : aerase (p :: rest) r = p :: aerase rest r := by
        simp [aerase, List.filter_cons, hp]
      rw [hstep]
      by_cases hpk : p.1 = k
      · have hk : ¬ (k = r) := by
          rw [← hpk]; exact hp
        simp [aget, hpk, hk]
      · simp [aget, hpk, ih]

/-- Deleting every removed key from the bucket map. -/
theorem aget_foldl_aerase {α : Type} (removed : List String) (m : List (String × α))
    (k : String) :
    aget (removed.foldl (fun acc r => aerase acc r) m) k
      = if k ∈ removed then none else aget m k := by
  induction removed generalizing m with
  | nil => simp
  | cons r rest ih =>
    simp only [List.foldl_cons, List.mem_cons]
    rw [ih, aget_aerase]
    by_cases h1 : k ∈ rest
    · simp [h1]
    · by_cases h2 : k = r
      · simp [h1, h2]
      · simp [h1, h2]

/-- `contains` agrees with membership for strings. -/
theorem contains_iff_mem (l : List String) (k : String) : l.contains k = true ↔ k ∈ l := by
  simp [List.contains, List.elem_iff]

/-- The initial dashboard state is well-formed. -/
theorem wfDash_init : WfDash initDashState := by
  refine ⟨List.nodup_nil, ?_, ?_⟩
  · intro k hk
    simp [initDashState] at hk
  · intro k hk
    simp [initDashState, aget] at hk

/-- An item-collection snapshot for a mirrored category preserves
dashboard well-formedness.  (Item callbacks only fire for subscribed
categories, whose identifiers the category mirror holds.) -/
theorem wfDash_onItemsSnapshot (catId : String) (itemsSnap : List (String × OwnerItem))
    (st : DashState) (hwf : WfDash st) (hcat : (aget st.categories catId).isSome) :
    WfDash (onItemsSnapshot catId itemsSnap st) := by
  obtain ⟨hnd, hsub, hitems⟩ := hwf
  refine ⟨hnd, hsub, ?_⟩
  intro k hk
  simp only [onItemsSnapshot] at hk
  rcases (aget_aset_isSome st.itemsByCategory catId itemsSnap k).mp hk with rfl | hold
  · exact hcat
  · exact hitems k hold

/-- Tearing down all listeners preserves dashboard well-formedness. -/
theorem wfDash_clearRealtimeListeners (st : DashState) (hwf : WfDash st) :
    WfDash (clearRealtimeListeners st) := by
  obtain ⟨_, _, hitems⟩ := hwf
  refine ⟨List.nodup_nil, ?_, hitems⟩
  intro k hk
  simp [clearRealtimeListeners] at hk

/-- C4: after a category-collection snapshot is delivered, the item
subscription map holds exactly one subscription per category identifier
present in that snapshot (its keys are unique and coincide with the
snapshot's category identifiers); every category that disappeared has its
subscription removed and its mirrored items dropped in the same update
cycle; and the dashboard well-formedness is preserved. -/
theorem onCategoriesSnapshot_exactly_one_subscription
    (snap : List (String × RawCat)) (st : DashState) (hwf : WfDash st) :
    (onCategoriesSnapshot snap st).itemsUnsubs.Nodup ∧
    (∀ k, k ∈ (onCategoriesSnapshot snap st).itemsUnsubs ↔
      (aget (onCategoriesSnapshot snap st).categories k).isSome) ∧
    (∀ k, (aget (buildNextCategories snap) k).isSome ↔ k ∈ snap.map Prod.fst) ∧
    (∀ k, ¬ (aget (buildNextCategories snap) k).isSome →
      aget (onCategoriesSnapshot snap st).itemsByCategory k = none ∧
      k ∉ (onCategoriesSnapshot snap st).itemsUnsubs) ∧
    WfDash (onCategoriesSnapshot snap st) := by
  obtain ⟨hnd, hsub, hitems⟩ := hwf
  simp only [onCategoriesSnapshot]
  set N := buildNextCategories snap with hNdef
  set removed := (akeys st.categories).filter (fun k => (aget N k).isNone) with hremdef
  set unsubs1 :=
    List.foldl (fun m k => m.filter (fun x => x ≠ k)) st.itemsUnsubs removed with hu1def
  set toAdd := (akeys N).filter (fun k => ¬ unsubs1.contains k) with htadef
  have hmem_rem : ∀ k, k ∈ removed ↔ k ∈ akeys st.categories ∧ aget N k = none := by
    intro k
    rw [hremdef]
    simp [List.mem_filter]
  have hmem_u1 : ∀ k, k ∈ unsubs1 ↔ k ∈ st.itemsUnsubs ∧ k ∉ removed := by
    intro k
    rw [hu1def]
    exact mem_foldl_filter_ne removed st.itemsUnsubs k
  have hmem_ta : ∀ k, k ∈ toAdd ↔ k ∈ akeys N ∧ k ∉ unsubs1 := by
    intro k
    rw [htadef]
    simp only [List.mem_filter, decide_eq_true_eq]
    rw [contains_iff_mem]
  have hitems1 : ∀ k,
      aget (List.foldl (fun m k => aerase m k) st.itemsByCategory removed) k
        = if k ∈ removed then none else aget st.itemsByCategory k := by
    intro k
    exact aget_foldl_aerase removed st.itemsByCategory k
  have hA : (unsubs1 ++ toAdd).Nodup := by
    have hnd1 : unsubs1.Nodup := by
      rw [hu1def]
      exact nodup_foldl_filter_ne removed st.itemsUnsubs hnd
    have hndta : toAdd.Nodup := by
      rw [htadef]
      exact List.Nodup.filter _ (by rw [hNdef] at *; exact buildNextCategories_keys_nodup snap)
    exact List.Nodup.append hnd1 hndta
      (fun a h1 h2 => ((hmem_ta a).mp h2).2 h1)
  have hB : ∀ k, k ∈ unsubs1 ++ toAdd ↔ (aget N k).isSome := by
    intro k
    rw [List.mem_append]
    constructor
    · rintro (h | h)
      · obtain ⟨hin, hnotrem⟩ := (hmem_u1 k).mp h
        have hkcats : k ∈ akeys st.categories := (aget_isSome_iff _ _).mp (hsub k hin)
        by_contra hns
        exact hnotrem ((hmem_rem k).mpr ⟨hkcats, Option.not_isSome_iff_eq_none.mp hns⟩)
      · exact (aget_isSome_iff _ _).mpr ((hmem_ta k).mp h).1
    · intro hs
      by_cases hu : k ∈ unsubs1
      · exact Or.inl hu
      · exact Or.inr ((hmem_ta k).mpr ⟨(aget_isSome_iff _ _).mp hs, hu⟩)
  have hC : ∀ k, (aget N k).isSome ↔ k ∈ snap.map Prod.fst := by
    intro k
    rw [hNdef]
    exact buildNextCategories_isSome_iff snap k
  have hD : ∀ k, ¬ (aget N k).isSome →
      aget (List.foldl (fun m k => aerase m k) st.itemsByCategory removed) k = none ∧
      k ∉ unsubs1 ++ toAdd := by
    intro k hns
    have hnone : aget N k = none := Option.not_isSome_iff_eq_none.mp hns
    constructor
    · rw [hitems1 k]
      by_cases hr : k ∈ removed
      · simp [hr]
      · rw [if_neg hr]
        by_contra hne
        have hs2 : (aget st.itemsByCategory k).isSome := Option.ne_none_iff_isSome.mp hne
        have hk3 : k ∈ akeys st.categories := (aget_isSome_iff _ _).mp (hitems k hs2)
        exact hr ((hmem_rem k).mpr ⟨hk3, hnone⟩)
    · intro hin
      exact hns ((hB k).mp hin)
  refine ⟨hA, hB, hC, hD, hA, fun k hk => (hB k).mp hk, fun k hks => ?_⟩
  by_cases hr : (aget N k).isSome
  · exact hr
  · exact absurd hks (by simp [(hD k hr).1])

theorem onCategoriesSnapshot_exactly_one_subscription_witness :
    (onCategoriesSnapshot [("c2", { name := some "Mains" })] demoDash).itemsUnsubs.Nodup ∧
    (∀ k, k ∈ (onCategoriesSnapshot [("c2", { name := some "Mains" })] demoDash).itemsUnsubs ↔
      (aget (onCategoriesSnapshot [("c2", { name := some "Mains" })] demoDash).categories
        k).isSome) ∧
    (∀ k, (aget (buildNextCategories [("c2", { name := some "Mains" })]) k).isSome ↔
      k ∈ [("c2", ({ name := some "Mains" } : RawCat))].map Prod.fst) ∧
    (∀ k, ¬ (aget (buildNextCategories [("c2", { name := some "Mains" })]) k).isSome →
      aget (onCategoriesSnapshot [("c2", { name := some "Mains" })] demoDash).itemsByCategory
          k = none ∧
      k ∉ (onCategoriesSnapshot [("c2", { name := some "Mains" })] demoDash).itemsUnsubs) ∧
    WfDash (onCategoriesSnapshot [("c2", { name := some "Mains" })] demoDash) :=
  onCategoriesSnapshot_exactly_one_subscription [("c2", { name := some "Mains" })] demoDash
    (by
      refine ⟨by simp [demoDash], ?_, ?_⟩
      · intro k hk
        simp only [demoDash, List.mem_singleton] at hk
        subst hk
        simp [aget]
      · intro k hks
        simp only [demoDash] at hks ⊢
        by_cases h : "c1" = k
        · subst h; simp [aget]
        · simp [aget, h] at hks)

end DineQR
